import Mathlib

/-!
Verification of `nrf-hal-common/src/clocks.rs` (the CLOCK peripheral driver).

The driver is embedded shallowly as trace-producing functions: every operation
of `Clocks` is a function returning the list of memory-mapped register accesses
it performs, in order.  The busy-wait loops in `enable_ext_hfosc` and
`start_lfclk` are modelled with an environment `env : Nat → Nat` giving the
value the hardware returns for the n-th read of the polled event register, and
a `fuel` bound on the number of observed loop iterations; a result of `none`
means the loop has not exited within `fuel` polls (the real loop is still
spinning).  Register state is a record of the word registers plus the LFCLKSRC
register, whose value type `α` differs between the hardware variants
(`LfClkSrcReg` for the full-field nRF52-style layout, `LfSrc` alone for the
nRF51 layout, absent on the nRF9160 network-style core).  Feature gating
(`#[cfg(feature = ...)]`) is embedded as the `availableOn` table.
-/

/-- High Frequency Clock Frequency (in Hz); `HFCLK_FREQ` in clocks.rs. -/
def HFCLK_FREQ : Nat := 64000000

/-- Low Frequency Clock Frequency (in Hz); `LFCLK_FREQ` in clocks.rs. -/
def LFCLK_FREQ : Nat := 32768

/-- The word-valued registers of the CLOCK peripheral that clocks.rs touches. -/
inductive Reg where
  | tasks_hfclkstart
  | events_hfclkstarted
  | tasks_hfclkstop
  | tasks_lfclkstart
  | events_lfclkstarted
  | tasks_lfclkstop
  deriving DecidableEq

/-- The three values of the LFCLKSRC `SRC` field: `rc()`, `synth()`, `xtal()`. -/
inductive LfSrc where
  | rc
  | synth
  | xtal
  deriving DecidableEq

/-- Value of the LFCLKSRC register on the full-field layout
(`#[cfg(not(any(feature = "9160", feature = "51")))]`): the 3-way `SRC`
selector plus the `BYPASS` and `EXTERNAL` bits. -/
structure LfClkSrcReg where
  src : LfSrc
  bypass : Bool
  external : Bool
  deriving DecidableEq

/-- `LfOscConfiguration` from clocks.rs. -/
inductive LfOscConfiguration where
  | NoExternalNoBypass
  | ExternalNoBypass
  | ExternalAndBypass
  deriving DecidableEq

/-- One memory-mapped register access.  `α` is the value type of the LFCLKSRC
register, which differs between hardware variants.  A `readReg` records the
value the hardware returned for that read. -/
inductive Access (α : Type) where
  | readReg (r : Reg) (v : Nat)
  | writeReg (r : Reg) (v : Nat)
  | writeLfclksrc (v : α)
  deriving DecidableEq

/-- Whether an access is a write of word register `r`. -/
def Access.isWriteTo {α : Type} (a : Access α) (r : Reg) : Bool :=
  match a with
  | .writeReg r2 _ => r2 == r
  | _ => false

/-- Whether an access reads or writes word register `r`. -/
def Access.touches {α : Type} (a : Access α) (r : Reg) : Bool :=
  match a with
  | .readReg r2 _ => r2 == r
  | .writeReg r2 _ => r2 == r
  | .writeLfclksrc _ => false

/-- Whether an access is a read. -/
def Access.isRead {α : Type} (a : Access α) : Bool :=
  match a with
  | .readReg _ _ => true
  | _ => false

/-- The register block of the CLOCK peripheral: one field per word register of
`Reg`, plus the LFCLKSRC register (value type `α`, variant dependent). -/
structure HwState (α : Type) where
  tasks_hfclkstart : Nat
  events_hfclkstarted : Nat
  tasks_hfclkstop : Nat
  tasks_lfclkstart : Nat
  events_lfclkstarted : Nat
  tasks_lfclkstop : Nat
  lfclksrc : α
  deriving DecidableEq

/-- Set one word register of the block. -/
def HwState.setWord {α : Type} (s : HwState α) (r : Reg) (v : Nat) : HwState α :=
  match r with
  | .tasks_hfclkstart =>
      ⟨v, s.events_hfclkstarted, s.tasks_hfclkstop, s.tasks_lfclkstart,
       s.events_lfclkstarted, s.tasks_lfclkstop, s.lfclksrc⟩
  | .events_hfclkstarted =>
      ⟨s.tasks_hfclkstart, v, s.tasks_hfclkstop, s.tasks_lfclkstart,
       s.events_lfclkstarted, s.tasks_lfclkstop, s.lfclksrc⟩
  | .tasks_hfclkstop =>
      ⟨s.tasks_hfclkstart, s.events_hfclkstarted, v, s.tasks_lfclkstart,
       s.events_lfclkstarted, s.tasks_lfclkstop, s.lfclksrc⟩
  | .tasks_lfclkstart =>
      ⟨s.tasks_hfclkstart, s.events_hfclkstarted, s.tasks_hfclkstop, v,
       s.events_lfclkstarted, s.tasks_lfclkstop, s.lfclksrc⟩
  | .events_lfclkstarted =>
      ⟨s.tasks_hfclkstart, s.events_hfclkstarted, s.tasks_hfclkstop,
       s.tasks_lfclkstart, v, s.tasks_lfclkstop, s.lfclksrc⟩
  | .tasks_lfclkstop =>
      ⟨s.tasks_hfclkstart, s.events_hfclkstarted, s.tasks_hfclkstop,
       s.tasks_lfclkstart, s.events_lfclkstarted, v, s.lfclksrc⟩

/-- Effect of one access on the register block.  A software write stores its
value; a read does not change the block; an LFCLKSRC write replaces the whole
register (the PAC `write` builds the full register value from its reset value,
with every named field set explicitly by the closure in clocks.rs). -/
def applyAccess {α : Type} (s : HwState α) (a : Access α) : HwState α :=
  match a with
  | .readReg _ _ => s
  | .writeReg r v => s.setWord r v
  | .writeLfclksrc v =>
      ⟨s.tasks_hfclkstart, s.events_hfclkstarted, s.tasks_hfclkstop,
       s.tasks_lfclkstart, s.events_lfclkstarted, s.tasks_lfclkstop, v⟩

/-- Effect of a whole access trace on the register block. -/
def applyTrace {α : Type} (s : HwState α) (t : List (Access α)) : HwState α :=
  t.foldl applyAccess s

/-- The busy-wait loop `while self.periph.events_X.read().bits() != 1 {}` of
clocks.rs.  `env n` is the value the hardware returns for the n-th read of the
polled event register `r`; `i` is the index of the next read; `fuel` bounds the
number of iterations observed.  Returns the list of reads the loop performed,
or `none` when the loop has not exited within `fuel` polls. -/
def pollLoop (α : Type) (env : Nat → Nat) (r : Reg) (fuel i : Nat) :
    Option (List (Access α)) :=
  match fuel with
  | 0 => none
  | fuel + 1 =>
    if env i = 1 then some [Access.readReg r (env i)]
    else Option.map (fun rest => Access.readReg r (env i) :: rest)
      (pollLoop α env r fuel (i + 1))

/-- `Clocks::enable_ext_hfosc`: write 1 to TASKS_HFCLKSTART, busy-wait until
EVENTS_HFCLKSTARTED reads 1, then write 0 to EVENTS_HFCLKSTARTED.  Returns the
access trace of a completed call, or `none` when the poll loop has not exited
within `fuel` reads (the call has not returned yet). -/
def enable_ext_hfosc (α : Type) (env : Nat → Nat) (fuel : Nat) :
    Option (List (Access α)) :=
  Option.map
    (fun polls => Access.writeReg Reg.tasks_hfclkstart 1 ::
      (polls ++ [Access.writeReg Reg.events_hfclkstarted 0]))
    (pollLoop α env Reg.events_hfclkstarted fuel 0)

/-- `Clocks::disable_ext_hfosc`: a single write of 1 to TASKS_HFCLKSTOP.  The
result is a plain list (not an `Option`): the call performs no wait and always
returns. -/
def disable_ext_hfosc (α : Type) : List (Access α) :=
  [Access.writeReg Reg.tasks_hfclkstop 1]

/-- `Clocks::start_lfclk`: write 1 to TASKS_LFCLKSTART, busy-wait until
EVENTS_LFCLKSTARTED reads 1, then write 0 to EVENTS_LFCLKSTARTED. -/
def start_lfclk (α : Type) (env : Nat → Nat) (fuel : Nat) :
    Option (List (Access α)) :=
  Option.map
    (fun polls => Access.writeReg Reg.tasks_lfclkstart 1 ::
      (polls ++ [Access.writeReg Reg.events_lfclkstarted 0]))
    (pollLoop α env Reg.events_lfclkstarted fuel 0)

/-- `Clocks::stop_lfclk`: a single write of 1 to TASKS_LFCLKSTOP; no wait. -/
def stop_lfclk (α : Type) : List (Access α) :=
  [Access.writeReg Reg.tasks_lfclkstop 1]

/-- `Clocks::set_lfclk_src_rc` on the full-field layout
(`cfg(not(any(feature = "9160", feature = "51")))`):
`w.src().rc().bypass().disabled().external().disabled()`. -/
def set_lfclk_src_rc : List (Access LfClkSrcReg) :=
  [Access.writeLfclksrc ⟨LfSrc.rc, false, false⟩]

/-- `Clocks::set_lfclk_src_synth` on the full-field layout:
`w.src().synth().bypass().disabled().external().disabled()`. -/
def set_lfclk_src_synth : List (Access LfClkSrcReg) :=
  [Access.writeLfclksrc ⟨LfSrc.synth, false, false⟩]

/-- `Clocks::set_lfclk_src_external` on the full-field layout: match the
configuration to the `(ext, byp)` pair, then write
`w.src().xtal().bypass().bit(byp).external().bit(ext)`. -/
def set_lfclk_src_external (cfg : LfOscConfiguration) : List (Access LfClkSrcReg) :=
  let p :=
    match cfg with
    | .NoExternalNoBypass => (false, false)
    | .ExternalNoBypass => (true, false)
    | .ExternalAndBypass => (true, true)
  [Access.writeLfclksrc ⟨LfSrc.xtal, p.2, p.1⟩]

/-- `Clocks::set_lfclk_src_rc` under `#[cfg(feature = "51")]`: the LFCLKSRC
register has only the `SRC` field, `w.src().rc()`. -/
def set_lfclk_src_rc_nrf51 : List (Access LfSrc) :=
  [Access.writeLfclksrc LfSrc.rc]

/-- `Clocks::set_lfclk_src_synth` under `#[cfg(feature = "51")]`:
`w.src().synth()`. -/
def set_lfclk_src_synth_nrf51 : List (Access LfSrc) :=
  [Access.writeLfclksrc LfSrc.synth]

/-- `Clocks::set_lfclk_src_external` under `#[cfg(feature = "51")]`: takes no
configuration argument, `w.src().xtal()`. -/
def set_lfclk_src_external_nrf51 : List (Access LfSrc) :=
  [Access.writeLfclksrc LfSrc.xtal]

/-- The compile-time hardware families the `cfg` attributes of clocks.rs
distinguish: `feature = "51"`, `feature = "9160"`, and everything else. -/
inductive Feature where
  | nrf51
  | nrf9160
  | other
  deriving DecidableEq

/-- Embedding of `cfg(feature = "51")`. -/
def feature51 : Feature → Bool
  | .nrf51 => true
  | _ => false

/-- Embedding of `cfg(feature = "9160")`. -/
def feature9160 : Feature → Bool
  | .nrf9160 => true
  | _ => false

/-- The public operations of `impl Clocks` in clocks.rs. -/
inductive ClocksOp where
  | new
  | enable_ext_hfosc
  | disable_ext_hfosc
  | start_lfclk
  | stop_lfclk
  | set_lfclk_src_rc
  | set_lfclk_src_synth
  | set_lfclk_src_external
  deriving DecidableEq

/-- Whether an operation exists on a given hardware family, read off the `cfg`
attributes of clocks.rs: each source-selection method has one definition under
`cfg(feature = "51")` and one under
`cfg(not(any(feature = "9160", feature = "51")))`; every other method is
unconditional. -/
def availableOn (f : Feature) (op : ClocksOp) : Bool :=
  match op with
  | .set_lfclk_src_rc => feature51 f || !(feature9160 f || feature51 f)
  | .set_lfclk_src_synth => feature51 f || !(feature9160 f || feature51 f)
  | .set_lfclk_src_external => feature51 f || !(feature9160 f || feature51 f)
  | _ => true

/-- The moved-in `CLOCK` peripheral handle: ownership of the register block. -/
structure CLOCK (α : Type) where
  regs : HwState α

/-- The `Clocks` struct of clocks.rs: it holds the peripheral handle. -/
structure Clocks (α : Type) where
  periph : CLOCK α

/-- `Clocks::new`: store the moved-in handle; the second component is the
trace of register accesses performed during construction. -/
def Clocks.new {α : Type} (clock : CLOCK α) : Clocks α × List (Access α) :=
  (⟨clock⟩, [])

/-- A completed poll loop consists of reads of `r` whose values were the
polled ones and were not 1, followed by one final read of 1; in particular
some poll returned 1. -/
theorem pollLoop_spec (α : Type) (env : Nat → Nat) (r : Reg) :
    ∀ fuel i polls, pollLoop α env r fuel i = some polls →
      (∃ pre, polls = pre ++ [Access.readReg r 1] ∧
        ∀ a ∈ pre, ∃ k, a = Access.readReg r (env k) ∧ env k ≠ 1) ∧
      ∃ n, env n = 1 := by
  intro fuel
  induction fuel with
  | zero => intro i polls h; simp [pollLoop] at h
  | succ fuel ih =>
    intro i polls h
    by_cases hc : env i = 1
    · simp only [pollLoop, if_pos hc, Option.some.injEq] at h
      subst h
      rw [hc]
      exact ⟨⟨[], rfl, by simp⟩, i, hc⟩
    · simp only [pollLoop, if_neg hc, Option.map_eq_some'] at h
      obtain ⟨rest, hrest, hpolls⟩ := h
      obtain ⟨⟨pre, hpre, hmem⟩, n, hn⟩ := ih (i + 1) rest hrest
      refine ⟨⟨Access.readReg r (env i) :: pre, ?_, ?_⟩, n, hn⟩
      · rw [← hpolls, hpre]; rfl
      · intro a ha
        rcases List.mem_cons.mp ha with ha | ha
        · exact ⟨i, ha, hc⟩
        · exact hmem a ha

/-- When some poll within the fuel bound returns 1, the poll loop exits. -/
theorem pollLoop_isSome (α : Type) (env : Nat → Nat) (r : Reg) :
    ∀ fuel i, (∃ j, j < fuel ∧ env (i + j) = 1) →
      ∃ polls, pollLoop α env r fuel i = some polls := by
  intro fuel
  induction fuel with
  | zero => intro i ⟨j, hj, _⟩; omega
  | succ fuel ih =>
    intro i ⟨j, hj, hv⟩
    by_cases hc : env i = 1
    · exact ⟨[Access.readReg r (env i)], by simp [pollLoop, if_pos hc]⟩
    · have hstep : ∃ j2, j2 < fuel ∧ env (i + 1 + j2) = 1 := by
        cases j with
        | zero => exact absurd hv hc
        | succ j =>
          refine ⟨j, by omega, ?_⟩
          have : i + 1 + j = i + (j + 1) := by omega
          rw [this]; exact hv
      obtain ⟨polls, hp⟩ := ih (i + 1) hstep
      exact ⟨Access.readReg r (env i) :: polls, by simp [pollLoop, if_neg hc, hp]⟩

/-- When no poll ever returns 1, the poll loop never exits. -/
theorem pollLoop_none (α : Type) (env : Nat → Nat) (r : Reg)
    (h : ∀ n, env n ≠ 1) : ∀ fuel i, pollLoop α env r fuel i = none := by
  intro fuel
  induction fuel with
  | zero => intro i; rfl
  | succ fuel ih => intro i; simp [pollLoop, if_neg (h i), ih (i + 1)]

/-- Read one word register of the block. -/
def HwState.word {α : Type} (s : HwState α) (r : Reg) : Nat :=
  match r with
  | .tasks_hfclkstart => s.tasks_hfclkstart
  | .events_hfclkstarted => s.events_hfclkstarted
  | .tasks_hfclkstop => s.tasks_hfclkstop
  | .tasks_lfclkstart => s.tasks_lfclkstart
  | .events_lfclkstarted => s.events_lfclkstarted
  | .tasks_lfclkstop => s.tasks_lfclkstop

/-- Setting a word register makes that register read back the written value. -/
theorem HwState.word_setWord_self {α : Type} (s : HwState α) (r : Reg) (v : Nat) :
    (s.setWord r v).word r = v := by
  cases r <;> rfl

/-- Folding a trace distributes over append. -/
theorem applyTrace_append {α : Type} (s : HwState α) (t1 t2 : List (Access α)) :
    applyTrace s (t1 ++ t2) = applyTrace (applyTrace s t1) t2 :=
  List.foldl_append applyAccess s t1 t2

/-- A trace of reads of an event register contains no write of a task field
(used to count task-trigger writes). -/
theorem filter_isWriteTo_of_reads (α : Type) (r r2 : Reg) (pre : List (Access α))
    (hmem : ∀ a ∈ pre, ∃ k, a = Access.readReg r2 k) :
    List.filter (fun a => a.isWriteTo r) pre = [] := by
  induction pre with
  | nil => rfl
  | cons a pre ih =>
    obtain ⟨k, hk⟩ := hmem a (List.mem_cons_self a pre)
    rw [List.filter_cons, hk]
    simp only [Access.isWriteTo, Bool.false_eq_true, if_false]
    exact ih fun b hb => hmem b (List.mem_cons_of_mem a hb)

/-- Common shape of the two blocking task/event handshakes: a returning call
produced exactly one write of 1 to the task register, then reads of the event
register that were not 1, one read of 1, and a clearing write of 0, after
which the event register holds 0. -/
theorem handshake_spec (α : Type) (env : Nat → Nat) (task ev : Reg) (fuel : Nat)
    (trace : List (Access α)) (hne : ev ≠ task)
    (h : Option.map
      (fun polls => Access.writeReg task 1 ::
        (polls ++ [Access.writeReg ev 0]))
      (pollLoop α env ev fuel 0) = some trace) :
    (∃ pre,
        trace = Access.writeReg task 1 ::
          (pre ++ [Access.readReg ev 1, Access.writeReg ev 0]) ∧
        ∀ a ∈ pre, ∃ k, a = Access.readReg ev (env k) ∧ env k ≠ 1) ∧
    List.filter (fun a => a.isWriteTo task) trace = [Access.writeReg task 1] ∧
    ∀ s : HwState α, (applyTrace s trace).word ev = 0 := by
  rw [Option.map_eq_some'] at h
  obtain ⟨polls, hpoll, htrace⟩ := h
  obtain ⟨⟨pre, hpre, hmem⟩, -⟩ := pollLoop_spec α env ev fuel 0 polls hpoll
  have htrace2 : trace = Access.writeReg task 1 ::
      (pre ++ [Access.readReg ev 1, Access.writeReg ev 0]) := by
    rw [← htrace, hpre]; simp
  refine ⟨⟨pre, htrace2, hmem⟩, ?_, ?_⟩
  · have hpre0 : List.filter (fun a => a.isWriteTo task) pre = [] :=
      filter_isWriteTo_of_reads α task ev pre
        fun a ha => ⟨env (hmem a ha).choose, ((hmem a ha).choose_spec).1⟩
    have hrest : List.filter (fun a => a.isWriteTo task)
        (pre ++ [Access.readReg ev 1, Access.writeReg ev 0]) = [] := by
      rw [List.filter_append, hpre0]
      simp [Access.isWriteTo, beq_eq_false_iff_ne, hne]
    have hw : List.filter (fun a => a.isWriteTo task)
        (Access.writeReg task 1 ::
          (pre ++ [Access.readReg ev 1, Access.writeReg ev 0])) =
        Access.writeReg task 1 :: List.filter (fun a => a.isWriteTo task)
          (pre ++ [Access.readReg ev 1, Access.writeReg ev 0]) := by
      rw [List.filter_cons]
      simp [Access.isWriteTo]
    rw [htrace2, hw, hrest]
  · intro s
    have : trace = (Access.writeReg task 1 ::
        (pre ++ [Access.readReg ev 1])) ++ [Access.writeReg ev 0] := by
      rw [htrace2]; simp
    rw [this, applyTrace_append]
    exact HwState.word_setWord_self _ ev 0

/-- A hardware environment whose event register always reads 1
(used to exercise the blocking operations on a concrete input). -/
def envOne : Nat → Nat := fun _ => 1

/-- C1: every returning call to enable_ext_hfosc writes 1 exactly once to the
HF-clock start task field, then polls the HF-started event field — every poll
before the last read a value other than 1, the last read 1 — and finally
writes 0 to that event field, so that after the call the event field reads 0
in the post-state. -/
theorem enable_ext_hfosc_trigger_wait_clear (α : Type) (env : Nat → Nat)
    (fuel : Nat) (trace : List (Access α))
    (h : enable_ext_hfosc α env fuel = some trace) :
    (∃ pre,
        trace = Access.writeReg Reg.tasks_hfclkstart 1 ::
          (pre ++ [Access.readReg Reg.events_hfclkstarted 1,
                   Access.writeReg Reg.events_hfclkstarted 0]) ∧
        ∀ a ∈ pre, ∃ k,
          a = Access.readReg Reg.events_hfclkstarted (env k) ∧ env k ≠ 1) ∧
    List.filter (fun a => a.isWriteTo Reg.tasks_hfclkstart) trace =
      [Access.writeReg Reg.tasks_hfclkstart 1] ∧
    ∀ s : HwState α, (applyTrace s trace).events_hfclkstarted = 0 :=
  handshake_spec α env Reg.tasks_hfclkstart Reg.events_hfclkstarted fuel trace
    (by decide) h

/-- Witness for C1 at the concrete environment that reads 1 immediately. -/
theorem enable_ext_hfosc_trigger_wait_clear_witness :
    (∃ pre,
        ([Access.writeReg Reg.tasks_hfclkstart 1,
          Access.readReg Reg.events_hfclkstarted 1,
          Access.writeReg Reg.events_hfclkstarted 0] :
            List (Access LfClkSrcReg)) =
          Access.writeReg Reg.tasks_hfclkstart 1 ::
            (pre ++ [Access.readReg Reg.events_hfclkstarted 1,
                     Access.writeReg Reg.events_hfclkstarted 0]) ∧
        ∀ a ∈ pre, ∃ k,
          a = Access.readReg Reg.events_hfclkstarted (envOne k) ∧ envOne k ≠ 1) ∧
    List.filter (fun a => a.isWriteTo Reg.tasks_hfclkstart)
      ([Access.writeReg Reg.tasks_hfclkstart 1,
        Access.readReg Reg.events_hfclkstarted 1,
        Access.writeReg Reg.events_hfclkstarted 0] :
          List (Access LfClkSrcReg)) =
      [Access.writeReg Reg.tasks_hfclkstart 1] ∧
    ∀ s : HwState LfClkSrcReg,
      (applyTrace s
        [Access.writeReg Reg.tasks_hfclkstart 1,
         Access.readReg Reg.events_hfclkstarted 1,
         Access.writeReg Reg.events_hfclkstarted 0]).events_hfclkstarted = 0 :=
  enable_ext_hfosc_trigger_wait_clear LfClkSrcReg envOne 1
    [Access.writeReg Reg.tasks_hfclkstart 1,
     Access.readReg Reg.events_hfclkstarted 1,
     Access.writeReg Reg.events_hfclkstarted 0] rfl

/-- C2: every returning call to start_lfclk, whatever the previously selected
source, writes 1 exactly once to the LF-clock start task field, polls the
LF-started event field until it reads 1, and writes 0 to that event field
before returning, leaving the event field at 0 in the post-state. -/
theorem start_lfclk_trigger_wait_clear (α : Type) (env : Nat → Nat)
    (fuel : Nat) (trace : List (Access α))
    (h : start_lfclk α env fuel = some trace) :
    (∃ pre,
        trace = Access.writeReg Reg.tasks_lfclkstart 1 ::
          (pre ++ [Access.readReg Reg.events_lfclkstarted 1,
                   Access.writeReg Reg.events_lfclkstarted 0]) ∧
        ∀ a ∈ pre, ∃ k,
          a = Access.readReg Reg.events_lfclkstarted (env k) ∧ env k ≠ 1) ∧
    List.filter (fun a => a.isWriteTo Reg.tasks_lfclkstart) trace =
      [Access.writeReg Reg.tasks_lfclkstart 1] ∧
    ∀ s : HwState α, (applyTrace s trace).events_lfclkstarted = 0 :=
  handshake_spec α env Reg.tasks_lfclkstart Reg.events_lfclkstarted fuel trace
    (by decide) h

/-- Witness for C2 at the concrete environment that reads 1 immediately. -/
theorem start_lfclk_trigger_wait_clear_witness :
    (∃ pre,
        ([Access.writeReg Reg.tasks_lfclkstart 1,
          Access.readReg Reg.events_lfclkstarted 1,
          Access.writeReg Reg.events_lfclkstarted 0] :
            List (Access LfClkSrcReg)) =
          Access.writeReg Reg.tasks_lfclkstart 1 ::
            (pre ++ [Access.readReg Reg.events_lfclkstarted 1,
                     Access.writeReg Reg.events_lfclkstarted 0]) ∧
        ∀ a ∈ pre, ∃ k,
          a = Access.readReg Reg.events_lfclkstarted (envOne k) ∧ envOne k ≠ 1) ∧
    List.filter (fun a => a.isWriteTo Reg.tasks_lfclkstart)
      ([Access.writeReg Reg.tasks_lfclkstart 1,
        Access.readReg Reg.events_lfclkstarted 1,
        Access.writeReg Reg.events_lfclkstarted 0] :
          List (Access LfClkSrcReg)) =
      [Access.writeReg Reg.tasks_lfclkstart 1] ∧
    ∀ s : HwState LfClkSrcReg,
      (applyTrace s
        [Access.writeReg Reg.tasks_lfclkstart 1,
         Access.readReg Reg.events_lfclkstarted 1,
         Access.writeReg Reg.events_lfclkstarted 0]).events_lfclkstarted = 0 :=
  start_lfclk_trigger_wait_clear LfClkSrcReg envOne 1
    [Access.writeReg Reg.tasks_lfclkstart 1,
     Access.readReg Reg.events_lfclkstarted 1,
     Access.writeReg Reg.events_lfclkstarted 0] rfl

/-- C3: on the full-field layout, set_lfclk_src_external writes exactly the
(external, bypass) bit pair given by the mapping NoExternalNoBypass to
(false, false), ExternalNoBypass to (true, false), ExternalAndBypass to
(true, true), and no other bit pair is reachable for any argument. -/
theorem set_lfclk_src_external_bit_pairs :
    set_lfclk_src_external LfOscConfiguration.NoExternalNoBypass =
      [Access.writeLfclksrc ⟨LfSrc.xtal, false, false⟩] ∧
    set_lfclk_src_external LfOscConfiguration.ExternalNoBypass =
      [Access.writeLfclksrc ⟨LfSrc.xtal, false, true⟩] ∧
    set_lfclk_src_external LfOscConfiguration.ExternalAndBypass =
      [Access.writeLfclksrc ⟨LfSrc.xtal, true, true⟩] ∧
    ∀ cfg, ∃ e b,
      set_lfclk_src_external cfg = [Access.writeLfclksrc ⟨LfSrc.xtal, b, e⟩] ∧
      ((e, b) = (false, false) ∨ (e, b) = (true, false) ∨ (e, b) = (true, true)) := by
  refine ⟨rfl, rfl, rfl, ?_⟩
  intro cfg
  cases cfg with
  | NoExternalNoBypass => exact ⟨false, false, rfl, Or.inl rfl⟩
  | ExternalNoBypass => exact ⟨true, false, rfl, Or.inr (Or.inl rfl)⟩
  | ExternalAndBypass => exact ⟨true, true, rfl, Or.inr (Or.inr rfl)⟩

/-- C4: on the full-field layout, set_lfclk_src_rc and set_lfclk_src_synth
leave the LFCLKSRC register with bypass and external both disabled, from every
prior register state, including a state left by any previous external-source
selection. -/
theorem set_lfclk_src_rc_synth_clear_bits (s : HwState LfClkSrcReg) :
    (applyTrace s set_lfclk_src_rc).lfclksrc = ⟨LfSrc.rc, false, false⟩ ∧
    (applyTrace s set_lfclk_src_synth).lfclksrc = ⟨LfSrc.synth, false, false⟩ ∧
    (applyTrace s set_lfclk_src_rc).lfclksrc.bypass = false ∧
    (applyTrace s set_lfclk_src_rc).lfclksrc.external = false ∧
    (applyTrace s set_lfclk_src_synth).lfclksrc.bypass = false ∧
    (applyTrace s set_lfclk_src_synth).lfclksrc.external = false ∧
    (∀ cfg, (applyTrace (applyTrace s (set_lfclk_src_external cfg))
        set_lfclk_src_rc).lfclksrc = ⟨LfSrc.rc, false, false⟩) ∧
    (∀ cfg, (applyTrace (applyTrace s (set_lfclk_src_external cfg))
        set_lfclk_src_synth).lfclksrc = ⟨LfSrc.synth, false, false⟩) :=
  ⟨rfl, rfl, rfl, rfl, rfl, rfl, fun _ => rfl, fun _ => rfl⟩

/-- C5: disable_ext_hfosc and stop_lfclk each perform exactly one write of 1
to their stop task field and nothing else: no read, no access of either event
field, and the post-state differs from the pre-state only in that task field.
Both are total functions into plain traces, so they involve no wait. -/
theorem stop_tasks_fire_and_forget (α : Type) :
    disable_ext_hfosc α = [Access.writeReg Reg.tasks_hfclkstop 1] ∧
    stop_lfclk α = [Access.writeReg Reg.tasks_lfclkstop 1] ∧
    (∀ a ∈ disable_ext_hfosc α, a.isRead = false ∧
      a.touches Reg.events_hfclkstarted = false ∧
      a.touches Reg.events_lfclkstarted = false) ∧
    (∀ a ∈ stop_lfclk α, a.isRead = false ∧
      a.touches Reg.events_hfclkstarted = false ∧
      a.touches Reg.events_lfclkstarted = false) ∧
    (∀ s : HwState α, applyTrace s (disable_ext_hfosc α) =
      s.setWord Reg.tasks_hfclkstop 1) ∧
    (∀ s : HwState α, applyTrace s (stop_lfclk α) =
      s.setWord Reg.tasks_lfclkstop 1) := by
  refine ⟨rfl, rfl, ?_, ?_, fun s => rfl, fun s => rfl⟩
  · intro a ha
    rw [disable_ext_hfosc, List.mem_singleton] at ha
    subst ha
    exact ⟨rfl, rfl, rfl⟩
  · intro a ha
    rw [stop_lfclk, List.mem_singleton] at ha
    subst ha
    exact ⟨rfl, rfl, rfl⟩

/-- C6: enable_ext_hfosc and start_lfclk return for some fuel bound exactly
when some poll of the corresponding event field reads 1; when every poll reads
a value other than 1, no fuel bound makes either call return. -/
theorem blocking_ops_terminate_iff_event (α : Type) (env : Nat → Nat) :
    ((∃ n, env n = 1) ↔
      ∃ fuel trace, enable_ext_hfosc α env fuel = some trace) ∧
    ((∃ n, env n = 1) ↔
      ∃ fuel trace, start_lfclk α env fuel = some trace) ∧
    ((∀ n, env n ≠ 1) → ∀ fuel,
      enable_ext_hfosc α env fuel = none ∧ start_lfclk α env fuel = none) := by
  have hpoll : ∀ r : Reg, (∃ n, env n = 1) ↔
      ∃ fuel polls, pollLoop α env r fuel 0 = some polls := by
    intro r
    constructor
    · rintro ⟨n, hn⟩
      obtain ⟨polls, hp⟩ :=
        pollLoop_isSome α env r (n + 1) 0
          ⟨n, Nat.lt_succ_self n, by rw [Nat.zero_add]; exact hn⟩
      exact ⟨n + 1, polls, hp⟩
    · rintro ⟨fuel, polls, hp⟩
      exact (pollLoop_spec α env r fuel 0 polls hp).2
  refine ⟨?_, ?_, ?_⟩
  · rw [hpoll Reg.events_hfclkstarted]
    constructor
    · rintro ⟨fuel, polls, hp⟩
      exact ⟨fuel, _, by rw [enable_ext_hfosc, hp]; rfl⟩
    · rintro ⟨fuel, trace, ht⟩
      rw [enable_ext_hfosc, Option.map_eq_some'] at ht
      obtain ⟨polls, hp, -⟩ := ht
      exact ⟨fuel, polls, hp⟩
  · rw [hpoll Reg.events_lfclkstarted]
    constructor
    · rintro ⟨fuel, polls, hp⟩
      exact ⟨fuel, _, by rw [start_lfclk, hp]; rfl⟩
    · rintro ⟨fuel, trace, ht⟩
      rw [start_lfclk, Option.map_eq_some'] at ht
      obtain ⟨polls, hp, -⟩ := ht
      exact ⟨fuel, polls, hp⟩
  · intro hnone fuel
    constructor
    · rw [enable_ext_hfosc, pollLoop_none α env Reg.events_hfclkstarted hnone fuel 0]
      rfl
    · rw [start_lfclk, pollLoop_none α env Reg.events_lfclkstarted hnone fuel 0]
      rfl

/-- C7: under feature 51, the three source-selection operations write only the
3-way selector to LFCLKSRC — the register value type has no bypass or external
bits — and set_lfclk_src_external takes no configuration argument; every word
register of the block is left unchanged by each of them. -/
theorem nrf51_src_selector_only :
    set_lfclk_src_rc_nrf51 = [Access.writeLfclksrc LfSrc.rc] ∧
    set_lfclk_src_synth_nrf51 = [Access.writeLfclksrc LfSrc.synth] ∧
    set_lfclk_src_external_nrf51 = [Access.writeLfclksrc LfSrc.xtal] ∧
    (∀ s : HwState LfSrc, applyTrace s set_lfclk_src_rc_nrf51 =
      ⟨s.tasks_hfclkstart, s.events_hfclkstarted, s.tasks_hfclkstop,
       s.tasks_lfclkstart, s.events_lfclkstarted, s.tasks_lfclkstop,
       LfSrc.rc⟩) ∧
    (∀ s : HwState LfSrc, applyTrace s set_lfclk_src_synth_nrf51 =
      ⟨s.tasks_hfclkstart, s.events_hfclkstarted, s.tasks_hfclkstop,
       s.tasks_lfclkstart, s.events_lfclkstarted, s.tasks_lfclkstop,
       LfSrc.synth⟩) ∧
    (∀ s : HwState LfSrc, applyTrace s set_lfclk_src_external_nrf51 =
      ⟨s.tasks_hfclkstart, s.events_hfclkstarted, s.tasks_hfclkstop,
       s.tasks_lfclkstart, s.events_lfclkstarted, s.tasks_lfclkstop,
       LfSrc.xtal⟩) :=
  ⟨rfl, rfl, rfl, fun _ => rfl, fun _ => rfl, fun _ => rfl⟩

/-- C8: on feature 9160 no source-selection operation is available — the three
set_lfclk_src operations are compiled out — and exactly the construction,
start/stop and high-frequency operations remain. -/
theorem nrf9160_no_src_ops :
    availableOn Feature.nrf9160 ClocksOp.set_lfclk_src_rc = false ∧
    availableOn Feature.nrf9160 ClocksOp.set_lfclk_src_synth = false ∧
    availableOn Feature.nrf9160 ClocksOp.set_lfclk_src_external = false ∧
    ∀ op, availableOn Feature.nrf9160 op = true ↔
      (op = ClocksOp.new ∨ op = ClocksOp.enable_ext_hfosc ∨
       op = ClocksOp.disable_ext_hfosc ∨ op = ClocksOp.start_lfclk ∨
       op = ClocksOp.stop_lfclk) := by
  refine ⟨rfl, rfl, rfl, ?_⟩
  intro op
  cases op <;> simp [availableOn, feature51, feature9160]

/-- C9: on the full-field layout, set_lfclk_src_external writes the xtal value
to the 3-way selector for every configuration argument; the argument only
chooses the bypass and external bits. -/
theorem set_lfclk_src_external_always_xtal (cfg : LfOscConfiguration) :
    ∃ b e, set_lfclk_src_external cfg = [Access.writeLfclksrc ⟨LfSrc.xtal, b, e⟩] := by
  cases cfg with
  | NoExternalNoBypass => exact ⟨false, false, rfl⟩
  | ExternalNoBypass => exact ⟨false, true, rfl⟩
  | ExternalAndBypass => exact ⟨true, true, rfl⟩

/-- C10: Clocks.new stores the moved-in peripheral handle unchanged and
performs no register access: its trace is empty and leaves every register
state exactly as it was. -/
theorem clocks_new_no_access (α : Type) (clock : CLOCK α) :
    (Clocks.new clock).1.periph = clock ∧
    (Clocks.new clock).2 = [] ∧
    ∀ s : HwState α, applyTrace s (Clocks.new clock).2 = s :=
  ⟨rfl, rfl, fun _ => rfl⟩
